import Mathlib

/-
Verification of the VOD transcoder pipeline (probe classification, rendition
ladder, hybrid hardware selection, encode-plan tonemap decision, transcode
orchestration, auxiliary stream extraction, packaging-descriptor synthesis).

The development shallowly embeds the TypeScript source: JavaScript numbers are
modelled by `JSNum` (NaN / +Infinity / -Infinity / an exact rational; the
claims settled here do not depend on IEEE rounding of finite values), strings
by Lean `String`, fallible parses by `Option`, and the effectful orchestration
loops by pure functions over explicit environments (file-existence oracle,
per-job encoder exit status).
-/

/-- JavaScript number semantics: NaN, the two infinities, or a finite value
(carried as an exact rational). -/
inductive JSNum where
  | nan
  | inf
  | ninf
  | fin (q : ℚ)
deriving DecidableEq

/-- JavaScript `isNaN`. -/
def JSNum.isNaN : JSNum → Bool
  | .nan => true
  | _ => false

/-- JavaScript division, including the zero-denominator behaviour:
`x/0` is `NaN` for `x = 0` and a signed infinity otherwise. -/
def jsDiv : JSNum → JSNum → JSNum
  | .nan, _ => .nan
  | _, .nan => .nan
  | .inf, .inf => .nan
  | .inf, .ninf => .nan
  | .ninf, .inf => .nan
  | .ninf, .ninf => .nan
  | .inf, .fin q => if q < 0 then .ninf else .inf
  | .ninf, .fin q => if q < 0 then .inf else .ninf
  | .fin _, .inf => .fin 0
  | .fin _, .ninf => .fin 0
  | .fin a, .fin b =>
      if b = 0 then (if a = 0 then .nan else if 0 < a then .inf else .ninf)
      else .fin (a / b)

/-- JavaScript multiplication (`Infinity * 0` is `NaN`). -/
def jsMul : JSNum → JSNum → JSNum
  | .nan, _ => .nan
  | _, .nan => .nan
  | .inf, .inf => .inf
  | .inf, .ninf => .ninf
  | .ninf, .inf => .ninf
  | .ninf, .ninf => .inf
  | .inf, .fin q => if q = 0 then .nan else if 0 < q then .inf else .ninf
  | .fin q, .inf => if q = 0 then .nan else if 0 < q then .inf else .ninf
  | .ninf, .fin q => if q = 0 then .nan else if 0 < q then .ninf else .inf
  | .fin q, .ninf => if q = 0 then .nan else if 0 < q then .ninf else .inf
  | .fin a, .fin b => .fin (a * b)

/-- JavaScript subtraction. -/
def jsSub : JSNum → JSNum → JSNum
  | .nan, _ => .nan
  | _, .nan => .nan
  | .inf, .inf => .nan
  | .inf, _ => .inf
  | .ninf, .ninf => .nan
  | .ninf, _ => .ninf
  | .fin _, .inf => .ninf
  | .fin _, .ninf => .inf
  | .fin a, .fin b => .fin (a - b)

/-- JavaScript `Math.min` (NaN-propagating). -/
def jsMin : JSNum → JSNum → JSNum
  | .nan, _ => .nan
  | _, .nan => .nan
  | .ninf, _ => .ninf
  | _, .ninf => .ninf
  | .inf, x => x
  | x, .inf => x
  | .fin a, .fin b => .fin (min a b)

/-- JavaScript strict greater-than (false whenever NaN is involved). -/
def jsGt : JSNum → JSNum → Bool
  | .nan, _ => false
  | _, .nan => false
  | .inf, .inf => false
  | .inf, _ => true
  | .ninf, _ => false
  | .fin _, .inf => false
  | .fin _, .ninf => true
  | .fin a, .fin b => decide (b < a)

/-- JavaScript `Math.ceil`. -/
def jsCeil : JSNum → JSNum
  | .nan => .nan
  | .inf => .inf
  | .ninf => .ninf
  | .fin q => .fin ((⌈q⌉ : ℤ) : ℚ)

/-- Numeric value of a decimal digit character. -/
def digitVal (c : Char) : ℕ := c.toNat - 48

/-- Value of a list of decimal digit characters, most significant first. -/
def natOfDigits (ds : List Char) : ℕ :=
  ds.foldl (fun acc c => acc * 10 + digitVal c) 0

/-- JavaScript `parseInt(s, 10)`: skip leading whitespace, optional sign,
then the maximal run of decimal digits; `none` models NaN (no digits). -/
def jsParseInt (s : String) : Option Int :=
  let cs := s.data.dropWhile Char.isWhitespace
  match cs with
  | '-' :: rest =>
      let ds := rest.takeWhile Char.isDigit
      if ds.isEmpty then none else some (-(natOfDigits ds : ℤ))
  | '+' :: rest =>
      let ds := rest.takeWhile Char.isDigit
      if ds.isEmpty then none else some ((natOfDigits ds : ℤ))
  | _ =>
      let ds := cs.takeWhile Char.isDigit
      if ds.isEmpty then none else some ((natOfDigits ds : ℤ))

/-- Injection of a `parseInt` result into JavaScript numbers. -/
def jsNumOfParseInt : Option Int → JSNum
  | none => .nan
  | some n => .fin (n : ℚ)

/-- JavaScript `o || dflt` for an optional string: `undefined` and the empty
string are falsy. -/
def jsStringOr (o : Option String) (dflt : String) : String :=
  match o with
  | none => dflt
  | some s => if s = "" then dflt else s

/-- JavaScript `String.prototype.split` with a single-character separator. -/
def jsSplit (s : String) (sep : Char) : List String :=
  (s.data.splitOn sep).map fun l => String.mk l

/-- Substring test on character lists (JavaScript `includes`). -/
def listContains (needle : List Char) : List Char → Bool
  | [] => needle.isEmpty
  | c :: tl => needle.isPrefixOf (c :: tl) || listContains needle tl

/-- JavaScript `s.includes(sub)`. -/
def jsIncludes (s sub : String) : Bool := listContains sub.data s.data

/-- Dynamic-range classification of the probed video stream. -/
inductive HDRType where
  | SDR
  | HDR10
  | HDR10Plus
  | DolbyVision
deriving DecidableEq

/-- One entry of ffprobe's `side_data_list` (only the field the prober
reads). -/
structure FFprobeSideData where
  side_data_type : Option String
deriving DecidableEq

/-- Probed stream metadata, restricted to the fields consumed by
`parseVideoInfo` and `detectHDRType`. -/
structure FFprobeStream where
  codec_name : String
  profile : Option String
  width : Option ℕ
  height : Option ℕ
  pix_fmt : Option String
  avg_frame_rate : Option String
  bit_rate : Option String
  color_primaries : Option String
  color_transfer : Option String
  color_space : Option String
  side_data_list : Option (List FFprobeSideData)
deriving DecidableEq

/-- The Dolby Vision side-data test of `detectHDRType`: exact match on the
DOVI configuration record name, or a name containing "Dolby Vision". -/
def sideDataIsDolbyVision (sd : FFprobeSideData) : Bool :=
  sd.side_data_type == some "DOVI configuration record" ||
    (match sd.side_data_type with
     | some t => jsIncludes t "Dolby Vision"
     | none => false)

/-- The HDR10+ side-data test of `detectHDRType`: exact match on the SMPTE
2094-40 dynamic-metadata name, or a name containing "SMPTE2094-40". -/
def sideDataIsHDR10Plus (sd : FFprobeSideData) : Bool :=
  sd.side_data_type == some "HDR Dynamic Metadata SMPTE2094-40 (HDR10+)" ||
    (match sd.side_data_type with
     | some t => jsIncludes t "SMPTE2094-40"
     | none => false)

/-- `detectHDRType` from the prober: Dolby Vision side data first, then
HDR10+ dynamic metadata, then the static BT.2020 + PQ condition, else SDR. -/
def detectHDRType (stream : FFprobeStream) : HDRType :=
  let fromSideData : Option HDRType :=
    match stream.side_data_list with
    | some sdl =>
        if sdl.any sideDataIsDolbyVision then some .DolbyVision
        else if sdl.any sideDataIsHDR10Plus then some .HDR10Plus
        else none
    | none => none
  match fromSideData with
  | some t => t
  | none =>
      let isBT2020 := stream.color_primaries == some "bt2020"
      let isPQ := stream.color_transfer == some "smpte2084"
      if isBT2020 && isPQ then .HDR10 else .SDR

/-- Frame-rate computation of `parseVideoInfo`: split `avg_frame_rate`
(defaulted to "24/1" when absent or empty) at '/', `parseInt` both parts with
the denominator defaulting to "1", divide, and replace a NaN result by 24. -/
def parseFrameRateField (avg_frame_rate : Option String) : JSNum :=
  let s := jsStringOr avg_frame_rate "24/1"
  let parts := jsSplit s '/'
  let num := jsParseInt (parts.headD "")
  let den := jsParseInt (jsStringOr parts[1]? "1")
  let q := jsDiv (jsNumOfParseInt num) (jsNumOfParseInt den)
  if q.isNaN then JSNum.fin 24 else q

/-- Classified video track, as produced by `parseVideoInfo`. -/
structure VideoInfo where
  width : ℕ
  height : ℕ
  codec : String
  profile : String
  pixelFormat : String
  frameRate : JSNum
  bitrate : JSNum
  hdrType : HDRType
  colorPrimaries : Option String
  colorTransfer : Option String
  colorSpace : Option String
deriving DecidableEq

/-- `parseVideoInfo` from the prober. -/
def parseVideoInfo (stream : FFprobeStream) : VideoInfo where
  width := stream.width.getD 0
  height := stream.height.getD 0
  codec := stream.codec_name
  profile := stream.profile.getD "unknown"
  pixelFormat := stream.pix_fmt.getD "unknown"
  frameRate := parseFrameRateField stream.avg_frame_rate
  bitrate := jsNumOfParseInt (jsParseInt (jsStringOr stream.bit_rate "0"))
  hdrType := detectHDRType stream
  colorPrimaries := stream.color_primaries
  colorTransfer := stream.color_transfer
  colorSpace := stream.color_space

/-- Hardware acceleration method identifier. -/
inductive HWAccelMethod where
  | nvidia
  | qsv
  | amf
  | vaapi
  | videotoolbox
  | software
deriving DecidableEq

/-- Hardware backend capability record (`HWAccelInfo` in the source; the
optional capability flags model optional TypeScript booleans, whose absence is
falsy). -/
structure HWAccelInfo where
  method : HWAccelMethod
  displayName : String
  hevcEncoder : String
  vp9Encoder : String
  hwaccelFlag : Option String := none
  hwaccelOutputFormat : Option String := none
  scaleFilter : String
  supportsVP9HW : Option Bool := none
  supportsHEVC10bit : Option Bool := none
  supportsVP910bit : Option Bool := none
deriving DecidableEq

/-- Truthiness of the optional `supportsVP9HW` capability flag. -/
def vp9HWTruthy (a : HWAccelInfo) : Bool := a.supportsVP9HW.getD false

/-- The NVIDIA entry of `HW_ACCEL_CONFIGS`. -/
def nvidiaConfig : HWAccelInfo where
  method := .nvidia
  displayName := "NVIDIA NVENC"
  hevcEncoder := "hevc_nvenc"
  vp9Encoder := "libvpx-vp9"
  hwaccelFlag := some "cuda"
  hwaccelOutputFormat := some "cuda"
  scaleFilter := "scale_cuda"
  supportsVP9HW := some false
  supportsHEVC10bit := some true
  supportsVP910bit := some false

/-- The Intel Quick Sync entry of `HW_ACCEL_CONFIGS`. -/
def qsvConfig : HWAccelInfo where
  method := .qsv
  displayName := "Intel Quick Sync"
  hevcEncoder := "hevc_qsv"
  vp9Encoder := "vp9_qsv"
  hwaccelFlag := some "qsv"
  hwaccelOutputFormat := some "qsv"
  scaleFilter := "scale_qsv"
  supportsVP9HW := some true
  supportsHEVC10bit := some true
  supportsVP910bit := some false

/-- The AMD AMF entry of `HW_ACCEL_CONFIGS`. -/
def amfConfig : HWAccelInfo where
  method := .amf
  displayName := "AMD AMF"
  hevcEncoder := "hevc_amf"
  vp9Encoder := "libvpx-vp9"
  hwaccelFlag := some "auto"
  hwaccelOutputFormat := some "d3d11va"
  scaleFilter := "scale"
  supportsVP9HW := some false
  supportsHEVC10bit := some true
  supportsVP910bit := some false

/-- The VA-API entry of `HW_ACCEL_CONFIGS`. -/
def vaapiConfig : HWAccelInfo where
  method := .vaapi
  displayName := "VA-API (Linux)"
  hevcEncoder := "hevc_vaapi"
  vp9Encoder := "vp9_vaapi"
  hwaccelFlag := some "vaapi"
  hwaccelOutputFormat := some "vaapi"
  scaleFilter := "scale_vaapi"
  supportsVP9HW := some true
  supportsHEVC10bit := some true
  supportsVP910bit := some false

/-- The VideoToolbox entry of `HW_ACCEL_CONFIGS`. -/
def videotoolboxConfig : HWAccelInfo where
  method := .videotoolbox
  displayName := "VideoToolbox (macOS)"
  hevcEncoder := "hevc_videotoolbox"
  vp9Encoder := "libvpx-vp9"
  hwaccelFlag := some "videotoolbox"
  hwaccelOutputFormat := some "videotoolbox_vld"
  scaleFilter := "scale"
  supportsVP9HW := some false
  supportsHEVC10bit := some true
  supportsVP910bit := some false

/-- `SOFTWARE_CONFIG`: the always-present software fallback backend. -/
def softwareConfig : HWAccelInfo where
  method := .software
  displayName := "Software (CPU)"
  hevcEncoder := "libx265"
  vp9Encoder := "libvpx-vp9"
  scaleFilter := "scale"

/-- A hybrid pairing of backends, one per codec (`HybridHWAccel`). -/
structure HybridHWAccel where
  hevc : HWAccelInfo
  vp9 : HWAccelInfo
deriving DecidableEq

/-- HEVC backend priority order used by `buildHybridConfig`. -/
def hevcPriority : List HWAccelMethod :=
  [.nvidia, .qsv, .amf, .vaapi, .videotoolbox, .software]

/-- VP9 backend priority order used by `buildHybridConfig`. -/
def vp9Priority : List HWAccelMethod := [.qsv, .vaapi, .software]

/-- First available backend with the given method. -/
def findAccel (available : List HWAccelInfo) (m : HWAccelMethod) :
    Option HWAccelInfo :=
  available.find? fun a => a.method = m

/-- The HEVC-side selection loop of `buildHybridConfig`: first method of
`hevcPriority` present in the available list. -/
def bestHevcChoice (available : List HWAccelInfo) : Option HWAccelInfo :=
  hevcPriority.findSome? (findAccel available)

/-- The VP9-side selection loop of `buildHybridConfig`: first method of
`vp9Priority` present in the available list that either reports hardware VP9
support or is the software method; a present but unaccepted candidate lets
the loop fall through to the next method. -/
def bestVP9Choice (available : List HWAccelInfo) : Option HWAccelInfo :=
  vp9Priority.findSome? fun m =>
    match findAccel available m with
    | some a =>
        if vp9HWTruthy a || a.method = HWAccelMethod.software then some a
        else none
    | none => none

/-- The `bestHevc` value of `buildHybridConfig`: the priority loop's pick,
falling back to the software config. -/
def chosenHevc (available : List HWAccelInfo) : HWAccelInfo :=
  match bestHevcChoice available with
  | some a => a
  | none => softwareConfig

/-- The `bestVP9` value of `buildHybridConfig`: the priority loop's pick,
falling back to a software entry of the list, then to the software config. -/
def chosenVP9 (available : List HWAccelInfo) : HWAccelInfo :=
  match bestVP9Choice available with
  | some a => a
  | none =>
      match available.find? (fun a => a.method = HWAccelMethod.software) with
      | some a => a
      | none => softwareConfig

/-- `buildHybridConfig` from the hardware detector: pick the HEVC and VP9
candidates by their priority loops (falling back to the software config), and
return a pair only when the two methods differ and the VP9 choice reports
hardware VP9 support. -/
def buildHybridConfig (available : List HWAccelInfo) : Option HybridHWAccel :=
  let bestHevc := chosenHevc available
  let bestVP9 := chosenVP9 available
  if !(bestHevc.method == bestVP9.method) && vp9HWTruthy bestVP9 then
    some { hevc := bestHevc, vp9 := bestVP9 }
  else
    none

/-- Outcome of the five hardware-presence checks of `detectHWAcceleration`
(each conjoins an acceleration-method probe with an encoder probe). -/
structure HWDetectFlags where
  nvidia : Bool
  qsv : Bool
  amf : Bool
  vaapi : Bool
  videotoolbox : Bool
deriving DecidableEq, Fintype

/-- The list `detectHWAcceleration` returns for a given detection outcome:
the detected hardware configs in fixed order, then always the software
fallback. -/
def detectedList (f : HWDetectFlags) : List HWAccelInfo :=
  (if f.nvidia then [nvidiaConfig] else []) ++
  (if f.qsv then [qsvConfig] else []) ++
  (if f.amf then [amfConfig] else []) ++
  (if f.vaapi then [vaapiConfig] else []) ++
  (if f.videotoolbox then [videotoolboxConfig] else []) ++
  [softwareConfig]

/-- Number of hardware backends detected. -/
def hwDetectCount (f : HWDetectFlags) : ℕ :=
  (if f.nvidia then 1 else 0) + (if f.qsv then 1 else 0) +
  (if f.amf then 1 else 0) + (if f.vaapi then 1 else 0) +
  (if f.videotoolbox then 1 else 0)

/-- Output quality tier label. -/
inductive RenditionQuality where
  | q2160p
  | q1440p
  | q1080p
  | q720p
  | q480p
deriving DecidableEq

/-- Catalog entry of the rendition ladder. -/
structure Rendition where
  quality : RenditionQuality
  width : ℕ
  height : ℕ
  vp9Bitrate : ℕ
  hevcBitrate : ℕ
  maxrate : ℕ
  bufsize : ℕ
  preserveHDR : Bool
deriving DecidableEq

/-- The static `RENDITION_LADDER` catalog. -/
def RENDITION_LADDER : List Rendition :=
  [ { quality := .q2160p, width := 3840, height := 2160, vp9Bitrate := 13500,
      hevcBitrate := 11000, maxrate := 20000, bufsize := 27000,
      preserveHDR := true },
    { quality := .q1440p, width := 2560, height := 1440, vp9Bitrate := 9000,
      hevcBitrate := 7000, maxrate := 13500, bufsize := 18000,
      preserveHDR := true },
    { quality := .q1080p, width := 1920, height := 1080, vp9Bitrate := 6000,
      hevcBitrate := 5000, maxrate := 9000, bufsize := 12000,
      preserveHDR := true },
    { quality := .q720p, width := 1280, height := 720, vp9Bitrate := 3250,
      hevcBitrate := 2500, maxrate := 5000, bufsize := 6500,
      preserveHDR := false },
    { quality := .q480p, width := 854, height := 480, vp9Bitrate := 1500,
      hevcBitrate := 1150, maxrate := 2250, bufsize := 3000,
      preserveHDR := false } ]

/-- `buildRenditionLadder`: keep the catalog tiers whose target height or
target width does not exceed the source's. -/
def buildRenditionLadder (sourceVideo : VideoInfo) : List Rendition :=
  RENDITION_LADDER.filter fun rendition =>
    decide (rendition.height ≤ sourceVideo.height) ||
      decide (rendition.width ≤ sourceVideo.width)

/-- Video codec targeted by a transcode job. -/
inductive Codec where
  | vp9
  | hevc
deriving DecidableEq

/-- The tonemap decision of `transcodeRendition`: tonemap when the rendition
does not preserve HDR and the source is not SDR; forced on for VP9 on a
QSV/VAAPI backend with hardware VP9 support when the source is not SDR. -/
def transcodeNeedsTonemap (codec : Codec) (hwAccel : HWAccelInfo)
    (rendition : Rendition) (video : VideoInfo) : Bool :=
  let base := !rendition.preserveHDR && video.hdrType ≠ HDRType.SDR
  if codec = Codec.vp9 ∧
      (hwAccel.method = HWAccelMethod.qsv ∨
        hwAccel.method = HWAccelMethod.vaapi) ∧
      vp9HWTruthy hwAccel ∧ video.hdrType ≠ HDRType.SDR then
    true
  else
    base

/-- Decimal digit character for a digit value (values ≥ 9 clamp to '9'; the
function is only applied to values below 10). -/
def digitChar (d : ℕ) : Char :=
  match d with
  | 0 => '0'
  | 1 => '1'
  | 2 => '2'
  | 3 => '3'
  | 4 => '4'
  | 5 => '5'
  | 6 => '6'
  | 7 => '7'
  | 8 => '8'
  | _ => '9'

/-- Decimal rendering of a natural number (JavaScript template-literal
interpolation of a nonnegative integer). -/
def natStr (n : ℕ) : String :=
  if n = 0 then "0" else String.mk ((Nat.digits 10 n).reverse.map digitChar)

/-- Audio channel-layout classification. -/
inductive AudioChannelLayout where
  | stereo
  | surround51
  | atmos
deriving DecidableEq

/-- Classified audio track (fields consumed by extraction and packaging). -/
structure AudioStream where
  index : ℕ
  codec : String
  channels : ℕ
  channelLayout : AudioChannelLayout
  language : String
  title : Option String
  isDefault : Bool
deriving DecidableEq

/-- Subtitle classification tag. -/
inductive SubtitleType where
  | standard
  | forced
  | sdh
deriving DecidableEq

/-- Classified subtitle track (fields consumed by extraction and
packaging). -/
structure SubtitleStream where
  index : ℕ
  codec : String
  language : String
  title : Option String
  type : SubtitleType
  isDefault : Bool
deriving DecidableEq

/-- Probe result for a source file (`MediaInfo` in the source). -/
structure MediaInfo where
  filePath : String
  fileName : String
  duration : JSNum
  size : JSNum
  video : VideoInfo
  audioStreams : List AudioStream
  subtitleStreams : List SubtitleStream
deriving DecidableEq

/-- Transcode mode. -/
inductive TranscodeMode where
  | dev
  | prod
deriving DecidableEq

/-- Mode-dependent transcode settings. -/
structure TranscodeSettings where
  mode : TranscodeMode
  passes : ℕ
  vp9Deadline : String
  vp9CpuUsed : ℕ
  hevcPreset : String
  x265Preset : String
deriving DecidableEq

/-- `getTranscodeSettings` from the transcoder. -/
def getTranscodeSettings (mode : TranscodeMode) : TranscodeSettings :=
  match mode with
  | .dev =>
      { mode := .dev, passes := 1, vp9Deadline := "realtime", vp9CpuUsed := 8,
        hevcPreset := "p1", x265Preset := "ultrafast" }
  | .prod =>
      { mode := .prod, passes := 2, vp9Deadline := "good", vp9CpuUsed := 2,
        hevcPreset := "p5", x265Preset := "medium" }

/-- Quality label string of a rendition tier. -/
def qualityLabel : RenditionQuality → String
  | .q2160p => "2160p"
  | .q1440p => "1440p"
  | .q1080p => "1080p"
  | .q720p => "720p"
  | .q480p => "480p"

/-- Codec label string. -/
def codecLabel : Codec → String
  | .vp9 => "vp9"
  | .hevc => "hevc"

/-- `getOutputFileName` from the transcoder: codec-appropriate container
extension and a name embedding quality and codec. -/
def getOutputFileName (rendition : Rendition) (codec : Codec) : String :=
  let ext := if codec = Codec.vp9 then "webm" else "mp4"
  "video_" ++ qualityLabel rendition.quality ++ "_" ++ codecLabel codec ++
    "." ++ ext

/-- Path join (`path.join(dir, name)` with a plain separator). -/
def pathJoin (dir name : String) : String := dir ++ "/" ++ name

instance {ε α : Type} [DecidableEq ε] [DecidableEq α] :
    DecidableEq (Except ε α) := fun x y =>
  match x, y with
  | .ok a, .ok b =>
      if h : a = b then isTrue (by rw [h])
      else isFalse (fun hc => h (Except.ok.inj hc))
  | .error a, .error b =>
      if h : a = b then isTrue (by rw [h])
      else isFalse (fun hc => h (Except.error.inj hc))
  | .ok _, .error _ => isFalse (fun hc => Except.noConfusion hc)
  | .error _, .ok _ => isFalse (fun hc => Except.noConfusion hc)

/-- Observable outcome of one `transcodeRendition` call: which passes spawned
an encoder process, the `onComplete` payloads fired, and the thrown exit code
or returned output path. -/
structure TranscodeRun where
  spawnedPasses : List ℕ
  completions : List String
  result : Except Int String
deriving DecidableEq

/-- Supervision skeleton of `transcodeRendition`, abstracted over a
file-existence oracle and the per-pass encoder exit codes: the skip-if-exists
check precedes any spawn; VP9 with two-pass settings runs passes 1 and 2,
anything else one pass; a nonzero exit throws (argument synthesis is modelled
separately by `transcodeNeedsTonemap`). -/
def transcodeRenditionModel (fileExists : String → Bool) (passExit : ℕ → Int)
    (outputDir : String) (rendition : Rendition) (codec : Codec)
    (settings : TranscodeSettings) (skipIfExists : Bool) : TranscodeRun :=
  let outputPath := pathJoin outputDir (getOutputFileName rendition codec)
  if skipIfExists && fileExists outputPath then
    { spawnedPasses := [], completions := [outputPath],
      result := .ok outputPath }
  else if codec == Codec.vp9 && settings.passes == 2 then
    if passExit 1 ≠ 0 then
      { spawnedPasses := [1], completions := [], result := .error (passExit 1) }
    else if passExit 2 ≠ 0 then
      { spawnedPasses := [1, 2], completions := [],
        result := .error (passExit 2) }
    else
      { spawnedPasses := [1, 2], completions := [outputPath],
        result := .ok outputPath }
  else
    if passExit 1 ≠ 0 then
      { spawnedPasses := [1], completions := [], result := .error (passExit 1) }
    else
      { spawnedPasses := [1], completions := [outputPath],
        result := .ok outputPath }

/-- `getAudioBitrate` from the transcoder. -/
def getAudioBitrate (stream : AudioStream) : String :=
  match stream.channelLayout with
  | .atmos => "768k"
  | .surround51 => "640k"
  | .stereo => "128k"

/-- `getAudioCodec` from the transcoder: AAC for stereo, E-AC3 otherwise. -/
def getAudioCodec (stream : AudioStream) : String :=
  if stream.channelLayout == AudioChannelLayout.stereo then "aac" else "eac3"

/-- Audio extraction output file name: language and positional index. -/
def audioOutputFileName (stream : AudioStream) (idx : ℕ) : String :=
  "audio_" ++ stream.language ++ "_" ++ natStr idx ++ ".mp4"

/-- Suffix appended to subtitle output names by classification type. -/
def subtitleSuffix : SubtitleType → String
  | .forced => "_forced"
  | .sdh => "_sdh"
  | .standard => ""

/-- Subtitle extraction output file name: language and type suffix only (no
positional index). -/
def subtitleOutputFileName (stream : SubtitleStream) : String :=
  "sub_" ++ stream.language ++ subtitleSuffix stream.type ++ ".vtt"

/-- Loop body of `extractSubtitles`, abstracted over a file-existence oracle
and per-index extraction exit codes; returns the output-path map (an
association list keyed by position) and the indices for which an ffmpeg
process was spawned. A pre-existing output in skip mode is recorded without a
spawn; a failed extraction spawns but is omitted from the map. -/
def extractSubtitlesGo (fileExists : String → Bool) (extractExit : ℕ → Int)
    (outputDir : String) (skipIfExists : Bool) :
    ℕ → List SubtitleStream → List (ℕ × String) × List ℕ
  | _, [] => ([], [])
  | idx, s :: rest =>
      let outputPath := pathJoin outputDir (subtitleOutputFileName s)
      let tailRes :=
        extractSubtitlesGo fileExists extractExit outputDir skipIfExists
          (idx + 1) rest
      if skipIfExists && fileExists outputPath then
        ((idx, outputPath) :: tailRes.1, tailRes.2)
      else if extractExit idx = 0 then
        ((idx, outputPath) :: tailRes.1, idx :: tailRes.2)
      else (tailRes.1, idx :: tailRes.2)

/-- `extractSubtitles` from the transcoder (model). -/
def extractSubtitlesModel (fileExists : String → Bool) (extractExit : ℕ → Int)
    (outputDir : String) (streams : List SubtitleStream)
    (skipIfExists : Bool) : List (ℕ × String) × List ℕ :=
  extractSubtitlesGo fileExists extractExit outputDir skipIfExists 0 streams

/-- Loop body of `extractAudio`, mirroring `extractSubtitlesGo` but with the
positional index embedded in the output file name. -/
def extractAudioGo (fileExists : String → Bool) (extractExit : ℕ → Int)
    (outputDir : String) (skipIfExists : Bool) :
    ℕ → List AudioStream → List (ℕ × String) × List ℕ
  | _, [] => ([], [])
  | idx, s :: rest =>
      let outputPath := pathJoin outputDir (audioOutputFileName s idx)
      let tailRes :=
        extractAudioGo fileExists extractExit outputDir skipIfExists
          (idx + 1) rest
      if skipIfExists && fileExists outputPath then
        ((idx, outputPath) :: tailRes.1, tailRes.2)
      else if extractExit idx = 0 then
        ((idx, outputPath) :: tailRes.1, idx :: tailRes.2)
      else (tailRes.1, idx :: tailRes.2)

/-- `extractAudio` from the transcoder (model). -/
def extractAudioModel (fileExists : String → Bool) (extractExit : ℕ → Int)
    (outputDir : String) (streams : List AudioStream)
    (skipIfExists : Bool) : List (ℕ × String) × List ℕ :=
  extractAudioGo fileExists extractExit outputDir skipIfExists 0 streams

/-- One entry of the `videoFiles` list the orchestrator accumulates. -/
structure VideoFileEntry where
  path : String
  quality : RenditionQuality
  codec : Codec
deriving DecidableEq

/-- The per-rendition transcode loop of `startTranscoding` in the
orchestrator, abstracted over the outcome of each awaited
`transcodeRendition` call (`.ok` returns the output path, `.error` models a
thrown `TranscodeFailed`). Each rendition attempts VP9 then HEVC, each inside
its own try/catch, pushing only successful paths; the loop then continues
with the remaining renditions. Returns the ordered list of attempted
(quality, codec) jobs and the accumulated `videoFiles`. -/
def renditionLoop (outcome : Rendition → Codec → Except Int String) :
    List Rendition → List (RenditionQuality × Codec) × List VideoFileEntry
  | [] => ([], [])
  | r :: rest =>
      let vp9Files : List VideoFileEntry :=
        match outcome r Codec.vp9 with
        | .ok p => [{ path := p, quality := r.quality, codec := Codec.vp9 }]
        | .error _ => []
      let hevcFiles : List VideoFileEntry :=
        match outcome r Codec.hevc with
        | .ok p => [{ path := p, quality := r.quality, codec := Codec.hevc }]
        | .error _ => []
      let tailRes := renditionLoop outcome rest
      ((r.quality, Codec.vp9) :: (r.quality, Codec.hevc) :: tailRes.1,
        vp9Files ++ (hevcFiles ++ tailRes.2))

/-- Elementary stream kind of a packager descriptor. -/
inductive PackagerStreamType where
  | video
  | audio
  | subtitle
deriving DecidableEq

/-- One packager stream descriptor (`PackagerInput` in the source). -/
structure PackagerInput where
  type : PackagerStreamType
  filePath : String
  codec : String
  quality : Option RenditionQuality := none
  language : Option String := none
  label : Option String := none
  subtitleType : Option SubtitleType := none
  isDefault : Option Bool := none
  index : Option ℕ := none
deriving DecidableEq

/-- Audio entry handed by the orchestrator to `preparePackagerInputs`. -/
structure AudioPkgFile where
  path : String
  language : String
  label : Option String
  index : ℕ
deriving DecidableEq

/-- Subtitle entry handed by the orchestrator to `preparePackagerInputs`. -/
structure SubtitlePkgFile where
  path : String
  language : String
  label : Option String
  type : SubtitleType
  isDefault : Bool
deriving DecidableEq

/-- The `audioFiles` list the orchestrator builds after the transcode loop:
one entry per probed audio stream, with the path reconstructed from the
naming convention in the tmp directory. -/
def audioFilesFromMedia (tmpDir : String) (audioStreams : List AudioStream) :
    List AudioPkgFile :=
  audioStreams.enum.map fun p =>
    { path := pathJoin tmpDir
        ("audio_" ++ p.2.language ++ "_" ++ natStr p.1 ++ ".mp4"),
      language := p.2.language, label := p.2.title, index := p.1 }

/-- The `subtitleFiles` list the orchestrator builds after the transcode
loop: one entry per probed subtitle stream, with the path reconstructed from
the naming convention in the tmp directory. -/
def subtitleFilesFromMedia (tmpDir : String)
    (subtitleStreams : List SubtitleStream) : List SubtitlePkgFile :=
  subtitleStreams.map fun s =>
    { path := pathJoin tmpDir
        ("sub_" ++ s.language ++ subtitleSuffix s.type ++ ".vtt"),
      language := s.language, label := s.title, type := s.type,
      isDefault := s.isDefault }

/-- Video descriptor built by `preparePackagerInputs`. -/
def videoPackagerInput (v : VideoFileEntry) : PackagerInput :=
  { type := .video, filePath := v.path, codec := codecLabel v.codec,
    quality := some v.quality }

/-- Audio descriptor built by `preparePackagerInputs`. -/
def audioPackagerInput (a : AudioPkgFile) : PackagerInput :=
  { type := .audio, filePath := a.path, codec := "aac",
    language := some a.language, label := a.label, index := some a.index }

/-- Subtitle descriptor built by `preparePackagerInputs`. -/
def subtitlePackagerInput (s : SubtitlePkgFile) : PackagerInput :=
  { type := .subtitle, filePath := s.path, codec := "webvtt",
    language := some s.language, label := s.label,
    subtitleType := some s.type, isDefault := some s.isDefault }

/-- `preparePackagerInputs` from the packager: video descriptors, then audio
descriptors, then subtitle descriptors. -/
def preparePackagerInputs (videoFiles : List VideoFileEntry)
    (audioFiles : List AudioPkgFile) (subtitleFiles : List SubtitlePkgFile) :
    List PackagerInput :=
  videoFiles.map videoPackagerInput ++ audioFiles.map audioPackagerInput ++
    subtitleFiles.map subtitlePackagerInput

/-- Character class of the `fps=`/`speed=` capture groups: digits and
dots. -/
def isDigitDot (c : Char) : Bool := c.isDigit || c == '.'

/-- First match of the pattern `frame=` + whitespace + digit run in the
buffer, as found by a single non-global regex match: the scan restarts one
character later when `frame=` is not followed by a digit run. Returns the
parsed frame number. -/
def scanFrame : List Char → Option ℕ
  | [] => none
  | c :: tl =>
      if "frame=".data.isPrefixOf (c :: tl) then
        let rest := ((c :: tl).drop 6).dropWhile Char.isWhitespace
        let ds := rest.takeWhile Char.isDigit
        if ds.isEmpty then scanFrame tl else some (natOfDigits ds)
      else scanFrame tl

/-- First match of `fps=` + whitespace + digit/dot run in the buffer;
returns the captured token. -/
def scanFps : List Char → Option (List Char)
  | [] => none
  | c :: tl =>
      if "fps=".data.isPrefixOf (c :: tl) then
        let rest := ((c :: tl).drop 4).dropWhile Char.isWhitespace
        let ds := rest.takeWhile isDigitDot
        if ds.isEmpty then scanFps tl else some ds
      else scanFps tl

/-- First match of `speed=` + whitespace + digit/dot run + literal 'x' in
the buffer; returns the captured token (without the 'x'). -/
def scanSpeed : List Char → Option (List Char)
  | [] => none
  | c :: tl =>
      if "speed=".data.isPrefixOf (c :: tl) then
        let rest := ((c :: tl).drop 6).dropWhile Char.isWhitespace
        let ds := rest.takeWhile isDigitDot
        if ds.isEmpty || !((rest.drop ds.length).head? == some 'x') then
          scanSpeed tl
        else some ds
      else scanSpeed tl

/-- JavaScript `parseFloat` restricted to the digit/dot capture class:
leading digits, then an optional fraction after the first dot; NaN (`none`)
when no digit occurs before or directly after the first dot. -/
def parseFloatDigitsDots (ds : List Char) : Option ℚ :=
  let intPart := ds.takeWhile Char.isDigit
  let rest := ds.dropWhile Char.isDigit
  match rest with
  | '.' :: tl =>
      let fracPart := tl.takeWhile Char.isDigit
      if intPart.isEmpty && fracPart.isEmpty then none
      else
        some ((natOfDigits intPart : ℚ) +
          (natOfDigits fracPart : ℚ) / ((10 : ℚ) ^ fracPart.length))
  | _ => if intPart.isEmpty then none else some ((natOfDigits intPart : ℚ))

/-- Injection of a `parseFloat` result into JavaScript numbers. -/
def jsNumOfParseFloat : Option ℚ → JSNum
  | none => .nan
  | some q => .fin q

/-- One progress snapshot reported via `onProgress`. -/
structure ProgressSnapshot where
  frame : ℕ
  fps : JSNum
  speed : JSNum
  percent : JSNum
  eta : JSNum
deriving DecidableEq

/-- The progress-extraction step of `runPass` in `transcodeRendition`: match
the three progress patterns against the current diagnostic buffer window; a
snapshot is emitted only when a frame match exists, with fps defaulting to 0
and speed to 1, percent clamped by `Math.min` at 100, and ETA computed from
remaining frames when fps is positive. -/
def parseProgressSnapshot (stderrBuffer : List Char) (totalFrames : JSNum) :
    Option ProgressSnapshot :=
  match scanFrame stderrBuffer with
  | none => none
  | some frame =>
      let fps :=
        match scanFps stderrBuffer with
        | some t => jsNumOfParseFloat (parseFloatDigitsDots t)
        | none => JSNum.fin 0
      let speed :=
        match scanSpeed stderrBuffer with
        | some t => jsNumOfParseFloat (parseFloatDigitsDots t)
        | none => JSNum.fin 1
      let percent :=
        jsMin (jsMul (jsDiv (JSNum.fin frame) totalFrames) (JSNum.fin 100))
          (JSNum.fin 100)
      let remainingFrames := jsSub totalFrames (JSNum.fin frame)
      let eta :=
        if jsGt fps (JSNum.fin 0) then jsDiv remainingFrames fps
        else JSNum.fin 0
      some { frame := frame, fps := fps, speed := speed, percent := percent,
             eta := eta }

/-- Total frame estimate of `transcodeRendition`: the ceiling of duration
times source frame rate. -/
def transcodeTotalFrames (mediaInfo : MediaInfo) : JSNum :=
  jsCeil (jsMul mediaInfo.duration mediaInfo.video.frameRate)

/-- Modelled from the spec: the value of the MOST RECENT `frame=` token in
the buffer window ("extract the most recent frame=, fps=, speed= tokens seen
so far in the current buffer window"). Used to compare the spec's reading
against the first-match behaviour of the code. -/
def specMostRecentFrame : List Char → Option ℕ
  | [] => none
  | c :: tl =>
      match specMostRecentFrame tl with
      | some n => some n
      | none =>
          if "frame=".data.isPrefixOf (c :: tl) then
            let rest := ((c :: tl).drop 6).dropWhile Char.isWhitespace
            let ds := rest.takeWhile Char.isDigit
            if ds.isEmpty then none else some (natOfDigits ds)
          else none

/-- Numerator token of the frame-rate computation: `parseInt` of the part
before the first '/'. -/
def frameRateNumToken (o : Option String) : Option Int :=
  jsParseInt ((jsSplit (jsStringOr o "24/1") '/').headD "")

/-- Denominator token of the frame-rate computation: `parseInt` of the part
after the first '/', defaulting to "1" when absent or empty. -/
def frameRateDenToken (o : Option String) : Option Int :=
  jsParseInt (jsStringOr (jsSplit (jsStringOr o "24/1") '/')[1]? "1")

/-- C2: for every rendition, VP9 on a QSV or VAAPI backend with hardware VP9
support and a non-SDR source forces tone-mapping on even when the rendition
preserves HDR; in every other configuration tone-mapping is on exactly when
the rendition's preserve-HDR flag is false and the source is not SDR. -/
theorem vp9_hw_tonemap_forcing (codec : Codec) (hw : HWAccelInfo)
    (r : Rendition) (v : VideoInfo) :
    (codec = Codec.vp9 →
      (hw.method = HWAccelMethod.qsv ∨ hw.method = HWAccelMethod.vaapi) →
      vp9HWTruthy hw = true → v.hdrType ≠ HDRType.SDR →
      transcodeNeedsTonemap codec hw r v = true) ∧
    (¬(codec = Codec.vp9 ∧
        (hw.method = HWAccelMethod.qsv ∨ hw.method = HWAccelMethod.vaapi) ∧
        vp9HWTruthy hw = true ∧ v.hdrType ≠ HDRType.SDR) →
      (transcodeNeedsTonemap codec hw r v = true ↔
        r.preserveHDR = false ∧ v.hdrType ≠ HDRType.SDR)) := by
  constructor
  · intro h1 h2 h3 h4
    simp only [transcodeNeedsTonemap]
    rw [if_pos ⟨h1, h2, h3, h4⟩]
  · intro hneg
    simp only [transcodeNeedsTonemap]
    rw [if_neg hneg]
    simp [Bool.and_eq_true, Bool.not_eq_true', decide_eq_true_eq]

/-- Witness for C2: a 1080p rendition with preserve-HDR set, an HDR10 source
and the QSV backend still tone-maps under VP9. -/
theorem vp9_hw_tonemap_forcing_witness :
    transcodeNeedsTonemap Codec.vp9 qsvConfig
      { quality := .q1080p, width := 1920, height := 1080, vp9Bitrate := 6000,
        hevcBitrate := 5000, maxrate := 9000, bufsize := 12000,
        preserveHDR := true }
      { width := 3840, height := 2160, codec := "hevc", profile := "Main 10",
        pixelFormat := "yuv420p10le", frameRate := JSNum.fin 24,
        bitrate := JSNum.fin 0, hdrType := .HDR10,
        colorPrimaries := some "bt2020", colorTransfer := some "smpte2084",
        colorSpace := some "bt2020nc" } = true :=
  (vp9_hw_tonemap_forcing Codec.vp9 qsvConfig _ _).1 rfl (Or.inl rfl) rfl
    (by decide)

/-- C4: HDR classification is order-sensitive — with side data present, a
Dolby Vision marker wins regardless of anything else, an HDR10+ marker wins
next, and only in the absence of both does the static BT.2020 + PQ condition
decide HDR10. -/
theorem detectHDRType_order_sensitive (stream : FFprobeStream)
    (sdl : List FFprobeSideData)
    (hside : stream.side_data_list = some sdl) :
    (sdl.any sideDataIsDolbyVision = true →
      detectHDRType stream = HDRType.DolbyVision) ∧
    (sdl.any sideDataIsDolbyVision = false →
      sdl.any sideDataIsHDR10Plus = true →
      detectHDRType stream = HDRType.HDR10Plus) ∧
    (sdl.any sideDataIsDolbyVision = false →
      sdl.any sideDataIsHDR10Plus = false →
      (detectHDRType stream = HDRType.HDR10 ↔
        stream.color_primaries = some "bt2020" ∧
          stream.color_transfer = some "smpte2084")) := by
  refine ⟨?_, ?_, ?_⟩
  · intro hdv
    simp [detectHDRType, hside, hdv]
  · intro hdv hplus
    simp [detectHDRType, hside, hdv, hplus]
  · intro hdv hplus
    simp [detectHDRType, hside, hdv, hplus]

/-- Witness for C4: a stream carrying both a Dolby Vision side-data marker
and BT.2020/PQ color metadata classifies as DolbyVision, never HDR10. -/
theorem detectHDRType_order_sensitive_witness :
    detectHDRType
      { codec_name := "hevc", profile := some "Main 10",
        width := some 3840, height := some 2160,
        pix_fmt := some "yuv420p10le", avg_frame_rate := some "24/1",
        bit_rate := some "20000000", color_primaries := some "bt2020",
        color_transfer := some "smpte2084", color_space := some "bt2020nc",
        side_data_list :=
          some [{ side_data_type := some "DOVI configuration record" }] } =
      HDRType.DolbyVision :=
  (detectHDRType_order_sensitive _
      [{ side_data_type := some "DOVI configuration record" }] rfl).1
    (by decide)

/-- C5: the ladder builder keeps exactly the catalog tiers whose target
height or target width does not exceed the source's, in catalog order; a
3840x2160 source keeps all five tiers, a 1920x1080 source keeps 1080p, 720p
and 480p, and a 960x480 source keeps only 480p. -/
theorem buildRenditionLadder_spec :
    (∀ (sv : VideoInfo) (r : Rendition),
        r ∈ buildRenditionLadder sv ↔
          r ∈ RENDITION_LADDER ∧
            (r.height ≤ sv.height ∨ r.width ≤ sv.width)) ∧
    (∀ sv : VideoInfo,
        List.Sublist (buildRenditionLadder sv) RENDITION_LADDER) ∧
    ((buildRenditionLadder
        { width := 3840, height := 2160, codec := "hevc", profile := "Main",
          pixelFormat := "yuv420p", frameRate := JSNum.fin 24,
          bitrate := JSNum.fin 0, hdrType := .SDR, colorPrimaries := none,
          colorTransfer := none, colorSpace := none }).map Rendition.quality =
      [.q2160p, .q1440p, .q1080p, .q720p, .q480p]) ∧
    ((buildRenditionLadder
        { width := 1920, height := 1080, codec := "hevc", profile := "Main",
          pixelFormat := "yuv420p", frameRate := JSNum.fin 24,
          bitrate := JSNum.fin 0, hdrType := .SDR, colorPrimaries := none,
          colorTransfer := none, colorSpace := none }).map Rendition.quality =
      [.q1080p, .q720p, .q480p]) ∧
    ((buildRenditionLadder
        { width := 960, height := 480, codec := "hevc", profile := "Main",
          pixelFormat := "yuv420p", frameRate := JSNum.fin 24,
          bitrate := JSNum.fin 0, hdrType := .SDR, colorPrimaries := none,
          colorTransfer := none, colorSpace := none }).map Rendition.quality =
      [.q480p]) := by
  refine ⟨?_, ?_, by decide, by decide, by decide⟩
  · intro sv r
    simp [buildRenditionLadder, List.mem_filter]
  · intro sv
    exact List.filter_sublist _

/-- C6 counterexample: the claim says an invalid or zero denominator yields
24, but on "24/0" the quotient is positive Infinity, which is not NaN and is
therefore kept, not replaced by 24. -/
theorem frameRate_zero_den_counterexample :
    parseFrameRateField (some "24/0") = JSNum.inf ∧
      parseFrameRateField (some "24/0") ≠ JSNum.fin 24 := by
  exact ⟨by decide, by decide⟩

/-- C6 (amended): the frame-rate string is split at '/' with the denominator
token defaulting to "1" when absent or empty, and the quotient is replaced by
24 exactly when it is NaN — an unparsable numerator or denominator, or 0/0;
a zero denominator with a nonzero parsed numerator yields a signed infinity,
which is kept. -/
theorem frameRate_default_on_nan (o : Option String) :
    (frameRateNumToken o = none → parseFrameRateField o = JSNum.fin 24) ∧
    (frameRateDenToken o = none → parseFrameRateField o = JSNum.fin 24) ∧
    (frameRateNumToken o = some 0 → frameRateDenToken o = some 0 →
      parseFrameRateField o = JSNum.fin 24) ∧
    (∀ n : ℤ, frameRateNumToken o = some n → 0 < n →
      frameRateDenToken o = some 0 → parseFrameRateField o = JSNum.inf) ∧
    (∀ n : ℤ, frameRateNumToken o = some n → n < 0 →
      frameRateDenToken o = some 0 → parseFrameRateField o = JSNum.ninf) ∧
    (∀ n d : ℤ, frameRateNumToken o = some n → frameRateDenToken o = some d →
      d ≠ 0 → parseFrameRateField o = JSNum.fin ((n : ℚ) / (d : ℚ))) := by
  have heq : parseFrameRateField o =
      (if (jsDiv (jsNumOfParseInt (frameRateNumToken o))
            (jsNumOfParseInt (frameRateDenToken o))).isNaN then JSNum.fin 24
       else jsDiv (jsNumOfParseInt (frameRateNumToken o))
            (jsNumOfParseInt (frameRateDenToken o))) := rfl
  refine ⟨?_, ?_, ?_, ?_, ?_, ?_⟩
  · intro h
    rw [heq, h]
    cases hd : frameRateDenToken o <;>
      simp [jsNumOfParseInt, jsDiv, JSNum.isNaN]
  · intro h
    rw [heq, h]
    cases hn : frameRateNumToken o <;>
      simp [jsNumOfParseInt, jsDiv, JSNum.isNaN]
  · intro hn hd
    rw [heq, hn, hd]
    simp [jsNumOfParseInt, jsDiv, JSNum.isNaN]
  · intro n hn hpos hd
    rw [heq, hn, hd]
    have h1 : (0 : ℚ) < (n : ℚ) := by exact_mod_cast hpos
    have h2 : (n : ℚ) ≠ 0 := ne_of_gt h1
    simp [jsNumOfParseInt, jsDiv, JSNum.isNaN, h1, h2]
  · intro n hn hneg hd
    rw [heq, hn, hd]
    have h1 : (n : ℚ) < 0 := by exact_mod_cast hneg
    have h2 : (n : ℚ) ≠ 0 := ne_of_lt h1
    have h3 : ¬(0 : ℚ) < (n : ℚ) := not_lt.mpr (le_of_lt h1)
    simp [jsNumOfParseInt, jsDiv, JSNum.isNaN, h1, h2, h3]
  · intro n d hn hd hdz
    rw [heq, hn, hd]
    have h1 : (d : ℚ) ≠ 0 := by exact_mod_cast hdz
    simp [jsNumOfParseInt, jsDiv, JSNum.isNaN, h1]

/-- Witness for the amended C6: a valid NTSC-style rational parses to its
exact quotient. -/
theorem frameRate_default_on_nan_witness :
    parseFrameRateField (some "30000/1001") =
      JSNum.fin (((30000 : ℤ) : ℚ) / ((1001 : ℤ) : ℚ)) :=
  (frameRate_default_on_nan (some "30000/1001")).2.2.2.2.2 30000 1001
    (by decide) (by decide) (by decide)

/-- C3: `buildHybridConfig` returns a pair only when it is the priority-chosen
HEVC and VP9 candidates, those differ in method, and the VP9 choice reports
hardware VP9 support; and for every detection outcome with at most one
hardware backend it returns none. -/
theorem buildHybridConfig_spec :
    (∀ (available : List HWAccelInfo) (p : HybridHWAccel),
        buildHybridConfig available = some p →
          p.hevc = chosenHevc available ∧ p.vp9 = chosenVP9 available ∧
            p.hevc.method ≠ p.vp9.method ∧ vp9HWTruthy p.vp9 = true) ∧
    (∀ f : HWDetectFlags, hwDetectCount f ≤ 1 →
        buildHybridConfig (detectedList f) = none) := by
  constructor
  · intro available p h
    have heq : buildHybridConfig available =
        (if !(chosenHevc available).method == (chosenVP9 available).method &&
            vp9HWTruthy (chosenVP9 available) then
          some { hevc := chosenHevc available, vp9 := chosenVP9 available }
        else none) := rfl
    rw [heq] at h
    by_cases hc : (!(chosenHevc available).method ==
        (chosenVP9 available).method && vp9HWTruthy (chosenVP9 available)) =
        true
    · rw [if_pos hc] at h
      obtain ⟨h1, h2⟩ := Bool.and_eq_true_iff.mp hc
      injection h with h
      subst h
      refine ⟨rfl, rfl, ?_, h2⟩
      intro hm
      rw [Bool.not_eq_true'] at h1
      exact absurd (beq_iff_eq.mpr hm) (by simp [h1])
    · rw [if_neg hc] at h
      exact absurd h (by simp)
  · decide

/-- Witness for C3: with NVIDIA and QSV detected, the pair is (NVIDIA for
HEVC, QSV for VP9) with distinct methods and hardware VP9 support; with
nothing detected, no pair is returned. -/
theorem buildHybridConfig_spec_witness :
    (HybridHWAccel.mk nvidiaConfig qsvConfig).hevc.method ≠
        (HybridHWAccel.mk nvidiaConfig qsvConfig).vp9.method ∧
      vp9HWTruthy (HybridHWAccel.mk nvidiaConfig qsvConfig).vp9 = true ∧
      buildHybridConfig
        (detectedList
          { nvidia := false, qsv := false, amf := false, vaapi := false,
            videotoolbox := false }) = none := by
  have h1 :=
    buildHybridConfig_spec.1 [nvidiaConfig, qsvConfig]
      (HybridHWAccel.mk nvidiaConfig qsvConfig) (by decide)
  have h2 :=
    buildHybridConfig_spec.2
      { nvidia := false, qsv := false, amf := false, vaapi := false,
        videotoolbox := false } (by decide)
  exact ⟨h1.2.2.1, h1.2.2.2, h2⟩

/-- C1: the orchestrator loop attempts VP9 then HEVC for every rendition in
order, independently of any job's outcome — in particular a VP9 failure never
suppresses the HEVC attempt for the same rendition or any later rendition's
jobs — and the `videoFiles` list handed to packaging consists of exactly the
jobs whose transcode returned a path, in attempt order. -/
theorem renditionLoop_failure_containment :
    (∀ (outcome : Rendition → Codec → Except Int String)
        (rs : List Rendition),
        (renditionLoop outcome rs).1 =
          rs.flatMap fun r => [(r.quality, Codec.vp9), (r.quality, Codec.hevc)]) ∧
    (∀ (outcome : Rendition → Codec → Except Int String)
        (rs : List Rendition),
        (renditionLoop outcome rs).2 =
          (rs.flatMap fun r => [(r, Codec.vp9), (r, Codec.hevc)]).filterMap
            fun rc =>
              match outcome rc.1 rc.2 with
              | .ok p =>
                  some { path := p, quality := rc.1.quality, codec := rc.2 }
              | .error _ => none) ∧
    (∀ (outcome : Rendition → Codec → Except Int String)
        (rs : List Rendition) (r : Rendition), r ∈ rs →
        (r.quality, Codec.vp9) ∈ (renditionLoop outcome rs).1 ∧
          (r.quality, Codec.hevc) ∈ (renditionLoop outcome rs).1) := by
  have hattempts : ∀ (outcome : Rendition → Codec → Except Int String)
      (rs : List Rendition),
      (renditionLoop outcome rs).1 =
        rs.flatMap fun r => [(r.quality, Codec.vp9), (r.quality, Codec.hevc)] := by
    intro outcome rs
    induction rs with
    | nil => rfl
    | cons r rest ih => simp [renditionLoop, ih]
  refine ⟨hattempts, ?_, ?_⟩
  · intro outcome rs
    induction rs with
    | nil => rfl
    | cons r rest ih =>
        simp only [renditionLoop, List.flatMap_cons, List.filterMap_append,
          List.filterMap_cons, List.flatMap_nil, List.filterMap_nil]
        cases h1 : outcome r Codec.vp9 <;> cases h2 : outcome r Codec.hevc <;>
          simp [h1, h2, ih]
  · intro outcome rs r hr
    rw [hattempts]
    constructor <;>
      · rw [List.mem_flatMap]
        exact ⟨r, hr, by simp⟩

/-- Witness for C1: with a single 480p rendition whose VP9 job throws and
whose HEVC job succeeds, both jobs are still attempted. -/
theorem renditionLoop_failure_containment_witness :
    ((RenditionQuality.q480p, Codec.vp9) ∈
        (renditionLoop
          (fun _ c => if c = Codec.vp9 then .error 1 else .ok "out.mp4")
          [{ quality := .q480p, width := 854, height := 480,
             vp9Bitrate := 1500, hevcBitrate := 1150, maxrate := 2250,
             bufsize := 3000, preserveHDR := false }]).1) ∧
      ((RenditionQuality.q480p, Codec.hevc) ∈
        (renditionLoop
          (fun _ c => if c = Codec.vp9 then .error 1 else .ok "out.mp4")
          [{ quality := .q480p, width := 854, height := 480,
             vp9Bitrate := 1500, hevcBitrate := 1150, maxrate := 2250,
             bufsize := 3000, preserveHDR := false }]).1) :=
  renditionLoop_failure_containment.2.2
    (fun _ c => if c = Codec.vp9 then .error 1 else .ok "out.mp4")
    [{ quality := .q480p, width := 854, height := 480, vp9Bitrate := 1500,
       hevcBitrate := 1150, maxrate := 2250, bufsize := 3000,
       preserveHDR := false }]
    { quality := .q480p, width := 854, height := 480, vp9Bitrate := 1500,
      hevcBitrate := 1150, maxrate := 2250, bufsize := 3000,
      preserveHDR := false }
    (by simp)

/-- Clamping by `Math.min` at 100 never exceeds 100 in the JavaScript order
(a NaN comparison is false). -/
theorem jsGt_jsMin_hundred (x : JSNum) :
    jsGt (jsMin x (JSNum.fin 100)) (JSNum.fin 100) = false := by
  cases x with
  | nan => rfl
  | inf => simp [jsMin, jsGt]
  | ninf => rfl
  | fin q =>
      simp only [jsMin, jsGt, decide_eq_false_iff_not, not_lt]
      exact min_le_right q 100

/-- C7 counterexample: a buffer window holding two frame= reports yields a
snapshot carrying the first token (10), not the most recent one (20) — a
non-global regex match returns the first occurrence in the window. -/
theorem progress_snapshot_not_most_recent :
    ((parseProgressSnapshot
        ("frame=  10 fps= 4.0 speed=1.00x frame=  20 fps= 8.0 speed=2.00x").data
        (JSNum.fin 100)).map ProgressSnapshot.frame = some 10) ∧
      specMostRecentFrame
          ("frame=  10 fps= 4.0 speed=1.00x frame=  20 fps= 8.0 speed=2.00x").data =
        some 20 ∧ (10 : ℕ) ≠ 20 :=
  ⟨by decide, by decide, by decide⟩

/-- C7 (amended): every emitted snapshot carries the FIRST frame=, fps= and
speed= tokens of the current buffer window (fps defaulting to 0, speed to 1
when absent); percent equals min(frame/totalFrames x 100, 100) and never
exceeds 100; ETA equals (totalFrames - frame)/fps when fps > 0 and 0
otherwise. -/
theorem progress_snapshot_first_match (buffer : List Char) (tf : JSNum)
    (snap : ProgressSnapshot)
    (h : parseProgressSnapshot buffer tf = some snap) :
    scanFrame buffer = some snap.frame ∧
    snap.fps = (match scanFps buffer with
      | some t => jsNumOfParseFloat (parseFloatDigitsDots t)
      | none => JSNum.fin 0) ∧
    snap.speed = (match scanSpeed buffer with
      | some t => jsNumOfParseFloat (parseFloatDigitsDots t)
      | none => JSNum.fin 1) ∧
    snap.percent =
      jsMin (jsMul (jsDiv (JSNum.fin snap.frame) tf) (JSNum.fin 100))
        (JSNum.fin 100) ∧
    jsGt snap.percent (JSNum.fin 100) = false ∧
    snap.eta = (if jsGt snap.fps (JSNum.fin 0) = true then
        jsDiv (jsSub tf (JSNum.fin snap.frame)) snap.fps
      else JSNum.fin 0) := by
  unfold parseProgressSnapshot at h
  cases hsf : scanFrame buffer with
  | none => rw [hsf] at h; exact absurd h (by simp)
  | some f =>
      rw [hsf] at h
      injection h with h
      subst h
      exact ⟨rfl, rfl, rfl, rfl, jsGt_jsMin_hundred _, rfl⟩

/-- Witness for the amended C7: a window reporting frame 5 at 2 fps (with an
unknown NaN total-frame estimate) snapshots the first frame token, and the
clamped percent still does not exceed 100 in the JavaScript order. -/
theorem progress_snapshot_first_match_witness :
    scanFrame ("frame= 5 fps= 2 speed=1x").data = some (5 : ℕ) ∧
      jsGt JSNum.nan (JSNum.fin 100) = false := by
  have h := progress_snapshot_first_match
      ("frame= 5 fps= 2 speed=1x").data JSNum.nan
      { frame := 5, fps := JSNum.fin 2, speed := JSNum.fin 1,
        percent := JSNum.nan, eta := JSNum.nan }
      (by decide)
  exact ⟨h.1, h.2.2.2.2.1⟩

/-- Every index spawned by the subtitle extraction loop is at least the
starting index. -/
theorem extractSubtitlesGo_spawned_ge (fe : String → Bool) (ee : ℕ → Int)
    (dir : String) (skip : Bool) :
    ∀ (streams : List SubtitleStream) (n k : ℕ),
      k ∈ (extractSubtitlesGo fe ee dir skip n streams).2 → n ≤ k := by
  intro streams
  induction streams with
  | nil =>
      intro n k hk
      simp [extractSubtitlesGo] at hk
  | cons s rest ih =>
      intro n k hk
      simp only [extractSubtitlesGo] at hk
      split at hk
      · exact Nat.le_of_succ_le (ih (n + 1) k hk)
      · split at hk
        · rcases List.mem_cons.mp hk with h | h
          · omega
          · exact Nat.le_of_succ_le (ih (n + 1) k h)
        · rcases List.mem_cons.mp hk with h | h
          · omega
          · exact Nat.le_of_succ_le (ih (n + 1) k h)

/-- A subtitle stream whose output file already exists is recorded in the
map without being spawned, at any starting index. -/
theorem extractSubtitlesGo_skip_mem (fe : String → Bool) (ee : ℕ → Int)
    (dir : String) :
    ∀ (streams : List SubtitleStream) (n j : ℕ) (s : SubtitleStream),
      streams[j]? = some s →
      fe (pathJoin dir (subtitleOutputFileName s)) = true →
      ((n + j, pathJoin dir (subtitleOutputFileName s)) ∈
          (extractSubtitlesGo fe ee dir true n streams).1 ∧
        n + j ∉ (extractSubtitlesGo fe ee dir true n streams).2) := by
  intro streams
  induction streams with
  | nil =>
      intro n j s hj
      simp at hj
  | cons s0 rest ih =>
      intro n j s hj hfe
      cases j with
      | zero =>
          rw [List.getElem?_cons_zero] at hj
          injection hj with hj
          subst hj
          rw [Nat.add_zero]
          constructor
          · simp only [extractSubtitlesGo]
            rw [if_pos (by simp [hfe])]
            exact List.mem_cons_self _ _
          · intro hmem
            simp only [extractSubtitlesGo] at hmem
            rw [if_pos (by simp [hfe])] at hmem
            have := extractSubtitlesGo_spawned_ge fe ee dir true rest
              (n + 1) n hmem
            omega
      | succ j =>
          rw [List.getElem?_cons_succ] at hj
          have ihr := ih (n + 1) j s hj hfe
          have e : n + (j + 1) = (n + 1) + j := by omega
          rw [e]
          constructor
          · simp only [extractSubtitlesGo]
            split
            · exact List.mem_cons_of_mem _ ihr.1
            · split
              · exact List.mem_cons_of_mem _ ihr.1
              · exact ihr.1
          · intro hmem
            simp only [extractSubtitlesGo] at hmem
            split at hmem
            · exact ihr.2 hmem
            · split at hmem
              · rcases List.mem_cons.mp hmem with h | h
                · omega
                · exact ihr.2 h
              · rcases List.mem_cons.mp hmem with h | h
                · omega
                · exact ihr.2 h

/-- Every index spawned by the audio extraction loop is at least the
starting index. -/
theorem extractAudioGo_spawned_ge (fe : String → Bool) (ee : ℕ → Int)
    (dir : String) (skip : Bool) :
    ∀ (streams : List AudioStream) (n k : ℕ),
      k ∈ (extractAudioGo fe ee dir skip n streams).2 → n ≤ k := by
  intro streams
  induction streams with
  | nil =>
      intro n k hk
      simp [extractAudioGo] at hk
  | cons s rest ih =>
      intro n k hk
      simp only [extractAudioGo] at hk
      split at hk
      · exact Nat.le_of_succ_le (ih (n + 1) k hk)
      · split at hk
        · rcases List.mem_cons.mp hk with h | h
          · omega
          · exact Nat.le_of_succ_le (ih (n + 1) k h)
        · rcases List.mem_cons.mp hk with h | h
          · omega
          · exact Nat.le_of_succ_le (ih (n + 1) k h)

/-- An audio stream whose output file already exists is recorded in the map
without being spawned, at any starting index. -/
theorem extractAudioGo_skip_mem (fe : String → Bool) (ee : ℕ → Int)
    (dir : String) :
    ∀ (streams : List AudioStream) (n j : ℕ) (s : AudioStream),
      streams[j]? = some s →
      fe (pathJoin dir (audioOutputFileName s (n + j))) = true →
      ((n + j, pathJoin dir (audioOutputFileName s (n + j))) ∈
          (extractAudioGo fe ee dir true n streams).1 ∧
        n + j ∉ (extractAudioGo fe ee dir true n streams).2) := by
  intro streams
  induction streams with
  | nil =>
      intro n j s hj
      simp at hj
  | cons s0 rest ih =>
      intro n j s hj hfe
      cases j with
      | zero =>
          rw [List.getElem?_cons_zero] at hj
          injection hj with hj
          subst hj
          rw [Nat.add_zero] at hfe ⊢
          constructor
          · simp only [extractAudioGo]
            rw [if_pos (by simp [hfe])]
            exact List.mem_cons_self _ _
          · intro hmem
            simp only [extractAudioGo] at hmem
            rw [if_pos (by simp [hfe])] at hmem
            have := extractAudioGo_spawned_ge fe ee dir true rest
              (n + 1) n hmem
            omega
      | succ j =>
          rw [List.getElem?_cons_succ] at hj
          have e : n + (j + 1) = (n + 1) + j := by omega
          rw [e] at hfe ⊢
          have ihr := ih (n + 1) j s hj hfe
          constructor
          · simp only [extractAudioGo]
            split
            · exact List.mem_cons_of_mem _ ihr.1
            · split
              · exact List.mem_cons_of_mem _ ihr.1
              · exact ihr.1
          · intro hmem
            simp only [extractAudioGo] at hmem
            split at hmem
            · exact ihr.2 hmem
            · split at hmem
              · rcases List.mem_cons.mp hmem with h | h
                · omega
                · exact ihr.2 h
              · rcases List.mem_cons.mp hmem with h | h
                · omega
                · exact ihr.2 h

/-- C8: with skip-if-exists requested and the output file already present,
a transcode spawns no pass, fires `onComplete` with the existing path and
returns it; and an extraction (subtitle or audio) spawns no process for that
stream and records the existing path in its result map. -/
theorem skip_if_exists_idempotent :
    (∀ (fileExists : String → Bool) (passExit : ℕ → Int) (outputDir : String)
        (rendition : Rendition) (codec : Codec) (settings : TranscodeSettings),
        fileExists (pathJoin outputDir (getOutputFileName rendition codec)) =
          true →
        transcodeRenditionModel fileExists passExit outputDir rendition codec
            settings true =
          { spawnedPasses := [],
            completions :=
              [pathJoin outputDir (getOutputFileName rendition codec)],
            result :=
              .ok (pathJoin outputDir (getOutputFileName rendition codec)) }) ∧
    (∀ (fe : String → Bool) (ee : ℕ → Int) (dir : String)
        (streams : List SubtitleStream) (j : ℕ) (s : SubtitleStream),
        streams[j]? = some s →
        fe (pathJoin dir (subtitleOutputFileName s)) = true →
        ((j, pathJoin dir (subtitleOutputFileName s)) ∈
            (extractSubtitlesModel fe ee dir streams true).1 ∧
          j ∉ (extractSubtitlesModel fe ee dir streams true).2)) ∧
    (∀ (fe : String → Bool) (ee : ℕ → Int) (dir : String)
        (streams : List AudioStream) (j : ℕ) (s : AudioStream),
        streams[j]? = some s →
        fe (pathJoin dir (audioOutputFileName s j)) = true →
        ((j, pathJoin dir (audioOutputFileName s j)) ∈
            (extractAudioModel fe ee dir streams true).1 ∧
          j ∉ (extractAudioModel fe ee dir streams true).2)) := by
  refine ⟨?_, ?_, ?_⟩
  · intro fileExists passExit outputDir rendition codec settings h
    simp only [transcodeRenditionModel]
    rw [if_pos (by simp [h])]
  · intro fe ee dir streams j s hj hfe
    have h := extractSubtitlesGo_skip_mem fe ee dir streams 0 j s hj hfe
    rw [Nat.zero_add] at h
    exact h
  · intro fe ee dir streams j s hj hfe
    have h := extractAudioGo_skip_mem fe ee dir streams 0 j s hj
      (by rw [Nat.zero_add]; exact hfe)
    rw [Nat.zero_add] at h
    exact h

/-- Witness for C8: with an oracle reporting every file present, a 480p VP9
dev-mode transcode completes immediately with no spawned pass, and
single-stream subtitle and audio extractions record index 0 without
spawning. -/
theorem skip_if_exists_idempotent_witness :
    (transcodeRenditionModel (fun _ => true) (fun _ => 1) "out"
        { quality := .q480p, width := 854, height := 480, vp9Bitrate := 1500,
          hevcBitrate := 1150, maxrate := 2250, bufsize := 3000,
          preserveHDR := false } Codec.vp9 (getTranscodeSettings .dev) true =
      { spawnedPasses := [],
        completions :=
          [pathJoin "out" (getOutputFileName
            { quality := .q480p, width := 854, height := 480,
              vp9Bitrate := 1500, hevcBitrate := 1150, maxrate := 2250,
              bufsize := 3000, preserveHDR := false } Codec.vp9)],
        result :=
          .ok (pathJoin "out" (getOutputFileName
            { quality := .q480p, width := 854, height := 480,
              vp9Bitrate := 1500, hevcBitrate := 1150, maxrate := 2250,
              bufsize := 3000, preserveHDR := false } Codec.vp9)) }) ∧
    ((0, pathJoin "tmp" (subtitleOutputFileName
        { index := 0, codec := "subrip", language := "eng", title := none,
          type := .forced, isDefault := false })) ∈
      (extractSubtitlesModel (fun _ => true) (fun _ => 1) "tmp"
        [{ index := 0, codec := "subrip", language := "eng", title := none,
           type := .forced, isDefault := false }] true).1) ∧
    ((0, pathJoin "tmp" (audioOutputFileName
        { index := 0, codec := "ac3", channels := 6,
          channelLayout := .surround51, language := "eng", title := none,
          isDefault := true } 0)) ∈
      (extractAudioModel (fun _ => true) (fun _ => 1) "tmp"
        [{ index := 0, codec := "ac3", channels := 6,
           channelLayout := .surround51, language := "eng", title := none,
           isDefault := true }] true).1) := by
  refine ⟨?_, ?_, ?_⟩
  · exact skip_if_exists_idempotent.1 (fun _ => true) (fun _ => 1) "out" _
      Codec.vp9 (getTranscodeSettings .dev) rfl
  · exact (skip_if_exists_idempotent.2.1 (fun _ => true) (fun _ => 1) "tmp"
      [{ index := 0, codec := "subrip", language := "eng", title := none,
         type := .forced, isDefault := false }] 0 _ rfl rfl).1
  · exact (skip_if_exists_idempotent.2.2 (fun _ => true) (fun _ => 1) "tmp"
      [{ index := 0, codec := "ac3", channels := 6,
         channelLayout := .surround51, language := "eng", title := none,
         isDefault := true }] 0 _ rfl rfl).1

/-- C9 counterexample: with one probed audio track whose extraction fails,
the extractor's output map is empty (the track is omitted), yet the packager
descriptor list still contains one audio descriptor for it — the
orchestrator rebuilds audio/subtitle paths from the naming convention
instead of consuming the extractor's map. -/
theorem failed_extraction_still_packaged :
    ((extractAudioModel (fun _ => false) (fun _ => 1) "tmp"
        [{ index := 0, codec := "aac", channels := 2,
           channelLayout := .stereo, language := "eng", title := none,
           isDefault := false }] false).1 = []) ∧
      ((preparePackagerInputs []
          (audioFilesFromMedia "tmp"
            [{ index := 0, codec := "aac", channels := 2,
               channelLayout := .stereo, language := "eng", title := none,
               isDefault := false }]) []).map PackagerInput.type =
        [PackagerStreamType.audio]) :=
  ⟨by decide, by decide⟩

/-- C9 (amended): the video descriptors handed to the packager are exactly
the successfully produced video files of the transcode loop, but the audio
and subtitle descriptors are built from every probed stream — one descriptor
per probed track, with the path reconstructed from the naming convention —
regardless of the extraction outcome. -/
theorem packaging_descriptor_sources
    (outcome : Rendition → Codec → Except Int String) (rs : List Rendition)
    (tmpDir : String) (audioStreams : List AudioStream)
    (subtitleStreams : List SubtitleStream) :
    (((preparePackagerInputs (renditionLoop outcome rs).2
        (audioFilesFromMedia tmpDir audioStreams)
        (subtitleFilesFromMedia tmpDir subtitleStreams)).filter
          (fun i => i.type == PackagerStreamType.video)).map
        PackagerInput.filePath =
      ((renditionLoop outcome rs).2).map VideoFileEntry.path) ∧
    (((preparePackagerInputs (renditionLoop outcome rs).2
        (audioFilesFromMedia tmpDir audioStreams)
        (subtitleFilesFromMedia tmpDir subtitleStreams)).filter
          (fun i => i.type == PackagerStreamType.audio)).length =
      audioStreams.length) ∧
    (((preparePackagerInputs (renditionLoop outcome rs).2
        (audioFilesFromMedia tmpDir audioStreams)
        (subtitleFilesFromMedia tmpDir subtitleStreams)).filter
          (fun i => i.type == PackagerStreamType.subtitle)).length =
      subtitleStreams.length) := by
  have key : ∀ (v : List VideoFileEntry) (afs : List AudioPkgFile)
      (sfs : List SubtitlePkgFile),
      (((preparePackagerInputs v afs sfs).filter
          (fun i => i.type == PackagerStreamType.video)).map
        PackagerInput.filePath = v.map VideoFileEntry.path) ∧
      (((preparePackagerInputs v afs sfs).filter
          (fun i => i.type == PackagerStreamType.audio)).length =
        afs.length) ∧
      (((preparePackagerInputs v afs sfs).filter
          (fun i => i.type == PackagerStreamType.subtitle)).length =
        sfs.length) := by
    have hall : ∀ {α : Type} (f : α → PackagerInput) (t : PackagerStreamType),
        (∀ x, (f x).type = t) → ∀ l : List α,
        (l.map f).filter (fun i => i.type == t) = l.map f := by
      intro α f t hf l
      induction l with
      | nil => rfl
      | cons x xs ih => simp [hf, ih]
    have hnone : ∀ {α : Type} (f : α → PackagerInput)
        (t t2 : PackagerStreamType), (∀ x, (f x).type = t) → t ≠ t2 →
        ∀ l : List α, (l.map f).filter (fun i => i.type == t2) = [] := by
      intro α f t t2 hf hne l
      induction l with
      | nil => rfl
      | cons x xs ih => simp [hf, ih, bne_iff_ne, hne]
    intro v afs sfs
    refine ⟨?_, ?_, ?_⟩ <;>
      simp only [preparePackagerInputs, List.filter_append,
        hall videoPackagerInput PackagerStreamType.video (fun _ => rfl),
        hall audioPackagerInput PackagerStreamType.audio (fun _ => rfl),
        hall subtitlePackagerInput PackagerStreamType.subtitle (fun _ => rfl),
        hnone videoPackagerInput PackagerStreamType.video
          PackagerStreamType.audio (fun _ => rfl) (by simp),
        hnone videoPackagerInput PackagerStreamType.video
          PackagerStreamType.subtitle (fun _ => rfl) (by simp),
        hnone audioPackagerInput PackagerStreamType.audio
          PackagerStreamType.video (fun _ => rfl) (by simp),
        hnone audioPackagerInput PackagerStreamType.audio
          PackagerStreamType.subtitle (fun _ => rfl) (by simp),
        hnone subtitlePackagerInput PackagerStreamType.subtitle
          PackagerStreamType.video (fun _ => rfl) (by simp),
        hnone subtitlePackagerInput PackagerStreamType.subtitle
          PackagerStreamType.audio (fun _ => rfl) (by simp),
        List.append_nil, List.nil_append, List.map_map, List.length_map]
    all_goals simp [videoPackagerInput, Function.comp]
  refine ⟨(key _ _ _).1, ?_, ?_⟩
  · rw [(key _ _ _).2.1]
    simp [audioFilesFromMedia]
  · rw [(key _ _ _).2.2]
    simp [subtitleFilesFromMedia]

/-- `takeWhile` consumes exactly an all-satisfying block when the next
character fails the predicate. -/
theorem takeWhile_append_stop (p : Char → Bool) :
    ∀ (xs : List Char) (c : Char) (ys : List Char),
      (∀ x ∈ xs, p x = true) → p c = false →
      (xs ++ c :: ys).takeWhile p = xs := by
  intro xs c ys
  induction xs with
  | nil =>
      intro _ hc
      simp [List.takeWhile_cons, hc]
  | cons x tl ih =>
      intro hxs hc
      have hx := hxs x (List.mem_cons_self x tl)
      rw [List.cons_append, List.takeWhile_cons, hx]
      simp [ih (fun y hy => hxs y (List.mem_cons_of_mem x hy)) hc]

/-- Digit characters produced by `digitChar` satisfy `isDigit`. -/
theorem digitChar_isDigit (d : ℕ) : (digitChar d).isDigit = true := by
  unfold digitChar
  rcases d with _ | _ | _ | _ | _ | _ | _ | _ | _ | d <;> rfl

/-- `digitChar` is injective on digit values. -/
theorem digitChar_inj_lt : ∀ a < 10, ∀ b < 10,
    digitChar a = digitChar b → a = b := by decide

/-- Every character of a decimal rendering is a digit. -/
theorem natStr_data_digits (n : ℕ) :
    ∀ c ∈ (natStr n).data, c.isDigit = true := by
  unfold natStr
  split
  · decide
  · intro c hc
    obtain ⟨d, _, rfl⟩ := List.mem_map.mp hc
    exact digitChar_isDigit d

/-- A nonzero number never renders as the string "0". -/
theorem digits_map_ne_zero_str (n : ℕ) (hn : n ≠ 0) :
    (Nat.digits 10 n).reverse.map digitChar ≠ ['0'] := by
  intro h
  have hlen : (Nat.digits 10 n).reverse.length = 1 := by
    have := congrArg List.length h
    simpa using this
  obtain ⟨d, hd⟩ := List.length_eq_one.mp hlen
  rw [hd] at h
  simp only [List.map_cons, List.map_nil, List.cons.injEq, and_true] at h
  have hdig : Nat.digits 10 n = [d] := by
    have := congrArg List.reverse hd
    simpa using this
  have hlt : d < 10 :=
    Nat.digits_lt_base (by norm_num) (by rw [hdig]; exact List.mem_singleton.mpr rfl)
  have hd0 : d = 0 :=
    digitChar_inj_lt d hlt 0 (by norm_num) (by rw [h]; rfl)
  have hzero : n = 0 := by
    have hofd := Nat.ofDigits_digits 10 n
    rw [hdig, hd0] at hofd
    simpa [Nat.ofDigits] using hofd.symm
  exact hn hzero

/-- `map digitChar` is injective on lists of digit values. -/
theorem map_digitChar_inj :
    ∀ (l1 l2 : List ℕ), (∀ x ∈ l1, x < 10) → (∀ x ∈ l2, x < 10) →
      l1.map digitChar = l2.map digitChar → l1 = l2 := by
  intro l1
  induction l1 with
  | nil =>
      intro l2 _ _ h
      cases l2 with
      | nil => rfl
      | cons y tl2 => simp at h
  | cons x tl ih =>
      intro l2 h1 h2 h
      cases l2 with
      | nil => simp at h
      | cons y tl2 =>
          simp only [List.map_cons, List.cons.injEq] at h
          have hx := digitChar_inj_lt x (h1 x (List.mem_cons_self x tl)) y
            (h2 y (List.mem_cons_self y tl2)) h.1
          rw [hx,
            ih tl2 (fun z hz => h1 z (List.mem_cons_of_mem x hz))
              (fun z hz => h2 z (List.mem_cons_of_mem y hz)) h.2]

/-- Decimal renderings of distinct naturals have distinct character data. -/
theorem natStr_data_inj (m n : ℕ) (h : (natStr m).data = (natStr n).data) :
    m = n := by
  unfold natStr at h
  by_cases hm : m = 0 <;> by_cases hn : n = 0
  · rw [hm, hn]
  · rw [if_pos hm, if_neg hn] at h
    exact absurd (by simpa using h.symm) (digits_map_ne_zero_str n hn)
  · rw [if_neg hm, if_pos hn] at h
    exact absurd (by simpa using h) (digits_map_ne_zero_str m hm)
  · rw [if_neg hm, if_neg hn] at h
    have hmap : (Nat.digits 10 m).reverse.map digitChar =
        (Nat.digits 10 n).reverse.map digitChar := by simpa using h
    have hrev := map_digitChar_inj _ _
      (fun x hx => Nat.digits_lt_base (by norm_num) (List.mem_reverse.mp hx))
      (fun x hx => Nat.digits_lt_base (by norm_num) (List.mem_reverse.mp hx))
      hmap
    have hdig : Nat.digits 10 m = Nat.digits 10 n := by
      have := congrArg List.reverse hrev
      simpa using this
    have h1 := Nat.ofDigits_digits 10 m
    rw [hdig, Nat.ofDigits_digits 10 n] at h1
    exact h1.symm

/-- Audio output file names embed the positional index and are therefore
pairwise distinct across distinct indices, whatever the languages. -/
theorem audioOutputFileName_inj (s1 s2 : AudioStream) (i j : ℕ)
    (hij : i ≠ j) : audioOutputFileName s1 i ≠ audioOutputFileName s2 j := by
  intro h
  apply hij
  have hd := congrArg String.data h
  simp only [audioOutputFileName, String.data_append] at hd
  have hrev := congrArg List.reverse hd
  simp only [List.reverse_append, List.append_assoc] at hrev
  have hcancel := List.append_cancel_left hrev
  simp only [← List.append_assoc] at hcancel
  have hcancel2 :
      (natStr i).data.reverse ++ '_' :: ("audio_".data ++ s1.language.data).reverse =
      (natStr j).data.reverse ++ '_' :: ("audio_".data ++ s2.language.data).reverse := by
    simpa [List.reverse_append] using hcancel
  have ht := congrArg (List.takeWhile Char.isDigit) hcancel2
  rw [takeWhile_append_stop Char.isDigit _ '_' _
        (fun c hc => natStr_data_digits i c (List.mem_reverse.mp hc))
        (by decide),
      takeWhile_append_stop Char.isDigit _ '_' _
        (fun c hc => natStr_data_digits j c (List.mem_reverse.mp hc))
        (by decide)] at ht
  have hdata : (natStr i).data = (natStr j).data := by
    have := congrArg List.reverse ht
    simpa using this
  exact natStr_data_inj i j hdata

/-- Under universal extraction success with skip mode off, the subtitle loop
records every stream at its positional key. -/
theorem extractSubtitlesGo_success_mem (fe : String → Bool) (dir : String) :
    ∀ (streams : List SubtitleStream) (n j : ℕ) (s : SubtitleStream),
      streams[j]? = some s →
      (n + j, pathJoin dir (subtitleOutputFileName s)) ∈
        (extractSubtitlesGo fe (fun _ => 0) dir false n streams).1 := by
  intro streams
  induction streams with
  | nil =>
      intro n j s hj
      simp at hj
  | cons s0 rest ih =>
      intro n j s hj
      cases j with
      | zero =>
          rw [List.getElem?_cons_zero] at hj
          injection hj with hj
          subst hj
          rw [Nat.add_zero]
          simp only [extractSubtitlesGo, Bool.false_and, Bool.false_eq_true,
            if_false, if_pos rfl]
          exact List.mem_cons_self _ _
      | succ j =>
          rw [List.getElem?_cons_succ] at hj
          have e : n + (j + 1) = (n + 1) + j := by omega
          rw [e]
          simp only [extractSubtitlesGo, Bool.false_and, Bool.false_eq_true,
            if_false, if_pos rfl]
          exact List.mem_cons_of_mem _ (ih (n + 1) j s hj)

/-- C10: two distinct subtitle streams with the same language and the same
classification type are assigned the identical output path, so the returned
map binds both indices to the same file (the later extraction writing over
the earlier one), whereas audio output names embed the positional index and
are pairwise distinct. -/
theorem subtitle_output_collision :
    (∀ (s1 s2 : SubtitleStream), s1.language = s2.language →
        s1.type = s2.type →
        subtitleOutputFileName s1 = subtitleOutputFileName s2) ∧
    (∀ (fe : String → Bool) (dir : String) (streams : List SubtitleStream)
        (i j : ℕ) (s1 s2 : SubtitleStream), streams[i]? = some s1 →
        streams[j]? = some s2 → i ≠ j → s1.language = s2.language →
        s1.type = s2.type →
        ((i, pathJoin dir (subtitleOutputFileName s1)) ∈
            (extractSubtitlesModel fe (fun _ => 0) dir streams false).1 ∧
          (j, pathJoin dir (subtitleOutputFileName s1)) ∈
            (extractSubtitlesModel fe (fun _ => 0) dir streams false).1)) ∧
    (∀ (s1 s2 : AudioStream) (i j : ℕ), i ≠ j →
        audioOutputFileName s1 i ≠ audioOutputFileName s2 j) := by
  have hname : ∀ (s1 s2 : SubtitleStream), s1.language = s2.language →
      s1.type = s2.type →
      subtitleOutputFileName s1 = subtitleOutputFileName s2 := by
    intro s1 s2 h1 h2
    simp [subtitleOutputFileName, h1, h2]
  refine ⟨hname, ?_, fun s1 s2 i j hij => audioOutputFileName_inj s1 s2 i j hij⟩
  intro fe dir streams i j s1 s2 hi hj hij hlang htype
  constructor
  · have h := extractSubtitlesGo_success_mem fe dir streams 0 i s1 hi
    rw [Nat.zero_add] at h
    exact h
  · have h := extractSubtitlesGo_success_mem fe dir streams 0 j s2 hj
    rw [Nat.zero_add, ← hname s1 s2 hlang htype] at h
    exact h

/-- Witness for C10: two forced English subtitle streams collide on
`sub_eng_forced.vtt` (the map binds indices 0 and 1 to the same path), while
two audio tracks at indices 0 and 1 get distinct file names. -/
theorem subtitle_output_collision_witness :
    ((0, pathJoin "tmp" (subtitleOutputFileName
        { index := 0, codec := "subrip", language := "eng", title := none,
          type := .forced, isDefault := false })) ∈
      (extractSubtitlesModel (fun _ => false) (fun _ => 0) "tmp"
        [{ index := 0, codec := "subrip", language := "eng", title := none,
           type := .forced, isDefault := false },
         { index := 1, codec := "subrip", language := "eng", title := some "F",
           type := .forced, isDefault := true }] false).1) ∧
      ((1, pathJoin "tmp" (subtitleOutputFileName
          { index := 0, codec := "subrip", language := "eng", title := none,
            type := .forced, isDefault := false })) ∈
        (extractSubtitlesModel (fun _ => false) (fun _ => 0) "tmp"
          [{ index := 0, codec := "subrip", language := "eng", title := none,
             type := .forced, isDefault := false },
           { index := 1, codec := "subrip", language := "eng", title := some "F",
             type := .forced, isDefault := true }] false).1) ∧
      audioOutputFileName
          { index := 0, codec := "aac", channels := 2,
            channelLayout := .stereo, language := "eng", title := none,
            isDefault := true } 0 ≠
        audioOutputFileName
          { index := 1, codec := "aac", channels := 2,
            channelLayout := .stereo, language := "eng", title := none,
            isDefault := false } 1 := by
  have h := subtitle_output_collision.2.1 (fun _ => false) "tmp"
    [{ index := 0, codec := "subrip", language := "eng", title := none,
       type := .forced, isDefault := false },
     { index := 1, codec := "subrip", language := "eng", title := some "F",
       type := .forced, isDefault := true }] 0 1
    { index := 0, codec := "subrip", language := "eng", title := none,
      type := .forced, isDefault := false }
    { index := 1, codec := "subrip", language := "eng", title := some "F",
      type := .forced, isDefault := true } rfl rfl (by decide) rfl rfl
  exact ⟨h.1, h.2, subtitle_output_collision.2.2 _ _ 0 1 (by decide)⟩
